import Mathlib

/-!
# Verification of the batched level-wise decision-tree builder

Shallow embedding of the objective functions (`GiniObjectiveFunction`,
`EntropyObjectiveFunction`, `regressionMetricGain`) and of the host-side
`Builder` driver (`workspaceSize`, `assignWorkspace`, `train`, `doSplit`,
`updateNodeRange`) of the batched level-wise decision-tree builder.

Modelling conventions:
* `DataT` (float/double) values are modelled by `ℚ`; the per-bin gain
  arithmetic is exact rational arithmetic in the same expression structure
  as the source.
* `IdxT` (int) values are modelled by `ℤ` (or by `ℕ` where the source value
  is a size/count that is asserted or initialized nonnegative).
* `-NumericLimits<DataT>::kMax` is the finite sentinel; `kMax` is the exact
  value of `__DBL_MAX__` as a rational.
* C++ implicit conversion from a floating-point argument to an integer
  parameter (truncation toward zero) is modelled by `truncTowardZero`.
-/

namespace DT

/-- `NumericLimits<double>::kMax`, i.e. `__DBL_MAX__ = (2^53 - 1) * 2^971`,
as an exact rational.  `-kMax` is the "no valid split" sentinel gain. -/
def kMax : ℚ := (2 ^ 53 - 1) * 2 ^ 971

/-- C++ conversion of a floating-point value to an integer type:
truncation toward zero. -/
def truncTowardZero (q : ℚ) : ℤ := if 0 ≤ q then ⌊q⌋ else ⌈q⌉

/-- The relevant fields of `DecisionTreeParams` (as consumed by the builder). -/
structure DecisionTreeParams where
  max_depth : ℕ
  max_leaves : ℤ
  max_batch_size : ℕ
  n_bins : ℕ
  min_samples_split : ℤ
  min_samples_leaf : ℤ
  min_impurity_decrease : ℚ
  deriving DecidableEq, Repr

/-! ## Objective functions (`metrics.cuh` excerpt, `src/unnamed/part_000`) -/

/-- Member state of `GiniObjectiveFunction<DataT, IdxT>`:
`IdxT nclasses; DataT min_impurity_decrease; IdxT min_samples_leaf;`.
`nclasses` is modelled by `ℕ` (it is the bound of the class loop). -/
structure GiniObjectiveFunction where
  nclasses : ℕ
  min_impurity_decrease : ℚ
  min_samples_leaf : ℤ
  deriving DecidableEq, Repr

/-- The constructor of `GiniObjectiveFunction` as declared in the source:
`GiniObjectiveFunction(DataT nclasses, IdxT min_impurity_decrease, IdxT
min_samples_leaf)`.  The second parameter has the *integer* type `IdxT`, so
its value is an integer by the time the member (of type `DataT`) is
initialized from it.  (The first parameter's `DataT` type round-trips the
integral class count unchanged, so it is modelled as `ℕ`.) -/
def GiniObjectiveFunction.make (nclasses : ℕ) (min_impurity_decrease : ℤ)
    (min_samples_leaf : ℤ) : GiniObjectiveFunction :=
  { nclasses := nclasses
    min_impurity_decrease := (min_impurity_decrease : ℚ)
    min_samples_leaf := min_samples_leaf }

/-- Constructing a `GiniObjectiveFunction` from a call site whose
`min_impurity_decrease` argument is a floating-point (`DataT`) value: C++
converts the argument to the parameter type `IdxT` by truncation toward
zero before the constructor body runs. -/
def GiniObjectiveFunction.fromDataT (nclasses : ℕ) (min_impurity_decrease : ℚ)
    (min_samples_leaf : ℤ) : GiniObjectiveFunction :=
  GiniObjectiveFunction.make nclasses (truncTowardZero min_impurity_decrease)
    min_samples_leaf

/-- The objective object constructed inside `Builder::computeSplit`:
`ObjectiveT objective(input.nclasses, params.min_impurity_decrease,
params.min_samples_split);` (note the third argument). -/
def computeSplitObjective (nclasses : ℕ) (p : DecisionTreeParams) :
    GiniObjectiveFunction :=
  GiniObjectiveFunction.fromDataT nclasses p.min_impurity_decrease
    p.min_samples_split

/-- The candidate gain computed by `GiniObjectiveFunction::Gain` for bin `i`.
`shist` is the shared-memory histogram: `shist (2*nbins*j + i)` is the count
of class-`j` samples left of bin `i`, `shist (2*nbins*j + nbins + i)` the
count right of it.  `len` is the node's sample count (`n_samples`).
Mirrors the body of the `i` iteration of the bin loop. -/
def GiniObjectiveFunction.gainForBin (obj : GiniObjectiveFunction)
    (shist : ℕ → ℕ) (nbins len i : ℕ) : ℚ :=
  let nLeft : ℕ := ∑ j ∈ Finset.range obj.nclasses, shist (2 * nbins * j + i)
  let nRight : ℤ := (len : ℤ) - (nLeft : ℤ)
  let invlen : ℚ := 1 / (len : ℚ)
  let gain : ℚ :=
    if (nLeft : ℤ) < obj.min_samples_leaf ∨ nRight < obj.min_samples_leaf then
      -kMax
    else
      let invLeft : ℚ := 1 / (nLeft : ℚ)
      let invRight : ℚ := 1 / (nRight : ℚ)
      ∑ j ∈ Finset.range obj.nclasses,
        (let lval : ℚ := (shist (2 * nbins * j + i) : ℚ)
         let rval : ℚ := (shist (2 * nbins * j + nbins + i) : ℚ)
         let val : ℚ := (lval + rval) * invlen
         lval * invLeft * lval * invlen + rval * invRight * rval * invlen
           - val * val)
  if gain ≤ obj.min_impurity_decrease then -kMax else gain

/-- Member state of `EntropyObjectiveFunction<DataT, IdxT>` (same member
declarations as the Gini objective). -/
structure EntropyObjectiveFunction where
  nclasses : ℕ
  min_impurity_decrease : ℚ
  min_samples_leaf : ℤ
  deriving DecidableEq, Repr

/-- The constructor of `EntropyObjectiveFunction` as written in the source:
its parameters are named `min_impurity_decreas` and `min_samples_leafe`,
while the mem-initializers read `min_impurity_decrease(min_impurity_decrease)`
and `min_samples_leaf(min_samples_leaf)`.  Those initializer arguments do not
name any parameter, so they resolve to the members themselves: the two
members are initialized from their own indeterminate pre-construction
values, modelled here by the extra arguments `junkImpurity` and `junkLeaf`.
The declared parameter types are `(DataT, IdxT, IdxT)` as in the source. -/
def EntropyObjectiveFunction.make (nclasses : ℕ) (min_impurity_decreas : ℤ)
    (min_samples_leafe : ℤ) (junkImpurity : ℚ) (junkLeaf : ℤ) :
    EntropyObjectiveFunction :=
  { nclasses := nclasses
    min_impurity_decrease := junkImpurity
    min_samples_leaf := junkLeaf }

/-- The candidate gain computed by `EntropyObjectiveFunction::Gain` for bin
`i`.  The base-2 logarithm `raft::myLog (·) / raft::myLog 2` is an external
device function, abstracted as the argument `log2`; the guards and control
flow are the source's. -/
def EntropyObjectiveFunction.gainForBin (obj : EntropyObjectiveFunction)
    (log2 : ℚ → ℚ) (shist : ℕ → ℕ) (nbins len i : ℕ) : ℚ :=
  let nLeft : ℕ := ∑ j ∈ Finset.range obj.nclasses, shist (2 * nbins * j + i)
  let nRight : ℤ := (len : ℤ) - (nLeft : ℤ)
  let invlen : ℚ := 1 / (len : ℚ)
  let gain : ℚ :=
    if (nLeft : ℤ) < obj.min_samples_leaf ∨ nRight < obj.min_samples_leaf then
      -kMax
    else
      let invLeft : ℚ := 1 / (nLeft : ℚ)
      let invRight : ℚ := 1 / (nRight : ℚ)
      ∑ j ∈ Finset.range obj.nclasses,
        (let lval_i : ℕ := shist (2 * nbins * j + i)
         let rval_i : ℕ := shist (2 * nbins * j + nbins + i)
         (if lval_i ≠ 0 then
            log2 ((lval_i : ℚ) * invLeft) * (lval_i : ℚ) * invlen
          else 0)
           + (if rval_i ≠ 0 then
                log2 ((rval_i : ℚ) * invRight) * (rval_i : ℚ) * invlen
              else 0)
           - (if lval_i + rval_i ≠ 0 then
                ((lval_i + rval_i : ℕ) : ℚ) * invlen
                  * log2 (((lval_i + rval_i : ℕ) : ℚ) * invlen)
              else 0))
  if gain ≤ obj.min_impurity_decrease then -kMax else gain

/-- The candidate gain computed by `regressionMetricGain` (MSE objective)
for bin `i`.  `slabel_cdf i` is the sum of labels of rows in bins `≤ i`,
`scount_cdf i` their count, `label_sum` the node's total label sum and
`len` its sample count. -/
def regressionMetricGainForBin (slabel_cdf : ℕ → ℚ) (scount_cdf : ℕ → ℤ)
    (label_sum : ℚ) (len : ℕ) (min_samples_leaf : ℤ)
    (min_impurity_decrease : ℚ) (i : ℕ) : ℚ :=
  let invlen : ℚ := 1 / (len : ℚ)
  let nLeft : ℤ := scount_cdf i
  let nRight : ℤ := (len : ℤ) - nLeft
  let gain : ℚ :=
    if nLeft < min_samples_leaf ∨ nRight < min_samples_leaf then -kMax
    else
      let parent_obj : ℚ := -label_sum * label_sum / (len : ℚ)
      let left_obj : ℚ := -(slabel_cdf i * slabel_cdf i) / (nLeft : ℚ)
      let right_label_sum : ℚ := slabel_cdf i - label_sum
      let right_obj : ℚ := -(right_label_sum * right_label_sum) / (nRight : ℚ)
      (parent_obj - (left_obj + right_obj)) * invlen
  if gain ≤ min_impurity_decrease then -kMax else gain

/-- The MSE per-bin gain exactly as the specification words it:
`left_sum = label_cdf[i]`, `right_sum = label_sum − left_sum`,
`parent = −(Σy)²/n`, `gain = (parent − (−left_sum²/nLeft −
right_sum²/nRight))/n_samples`, with the `min_samples_leaf` and
`min_impurity_decrease` guards emitting the `−∞` sentinel. -/
def mseGainSpec (slabel_cdf : ℕ → ℚ) (scount_cdf : ℕ → ℤ) (label_sum : ℚ)
    (len : ℕ) (min_samples_leaf : ℤ) (min_impurity_decrease : ℚ) (i : ℕ) : ℚ :=
  let nLeft : ℤ := scount_cdf i
  let nRight : ℤ := (len : ℤ) - nLeft
  if nLeft < min_samples_leaf ∨ nRight < min_samples_leaf then -kMax
  else
    let parent : ℚ := -(label_sum * label_sum) / (len : ℚ)
    let left_sum : ℚ := slabel_cdf i
    let right_sum : ℚ := label_sum - left_sum
    let gain : ℚ :=
      (parent - (-(left_sum * left_sum) / (nLeft : ℚ)
          - right_sum * right_sum / (nRight : ℚ))) / (len : ℚ)
    if gain ≤ min_impurity_decrease then -kMax else gain

/-- A concrete shared-memory histogram used as a test vector: one bin
(`nbins = 1`), two classes, a perfect split of 4 samples — class 0 entirely
on the left (`shist 0 = 2`), class 1 entirely on the right (`shist 3 = 2`). -/
def histPure : ℕ → ℕ := fun k => if k = 0 then 2 else if k = 3 then 2 else 0

/-- Rewriting the trailing `min_impurity_decrease` guard along an equality
of the two gain expressions. -/
theorem ite_gain_congr {gc gs mid s : ℚ} (h : gc = gs) :
    (if gc ≤ mid then s else gc) = (if gs ≤ mid then s else gs) := by rw [h]

/-! ## Claim theorems about the objective functions -/

/-- C1: the claim says the threshold compared against `nLeft` and `nRight`
by the objective that `Builder::computeSplit` constructs is the caller's
`min_samples_leaf`.  The code passes `params.min_samples_split` instead:
with `min_samples_leaf = 1` and `min_samples_split = 3`, the constructed
objective stores threshold `3`, and a candidate bin with `nLeft = 2` and
`nRight = 2` (both `≥ min_samples_leaf`) is vetoed to `-kMax`, while the
objective configured with the caller's `min_samples_leaf` keeps its gain
`1/2`. -/
theorem computeSplit_objective_guard_is_min_samples_split :
    (computeSplitObjective 2 ⟨8, -1, 128, 1, 3, 1, 0⟩).min_samples_leaf = 3 ∧
    (⟨8, -1, 128, 1, 3, 1, 0⟩ : DecisionTreeParams).min_samples_leaf = 1 ∧
    (computeSplitObjective 2 ⟨8, -1, 128, 1, 3, 1, 0⟩).gainForBin
        histPure 1 4 0 = -kMax ∧
    (GiniObjectiveFunction.make 2 0 1).gainForBin histPure 1 4 0 = 1 / 2 ∧
    (1 / 2 : ℚ) ≠ -kMax := by
  refine ⟨rfl, rfl, ?_, ?_, by norm_num [kMax]⟩
  · simp [computeSplitObjective, GiniObjectiveFunction.fromDataT,
      GiniObjectiveFunction.make, truncTowardZero,
      GiniObjectiveFunction.gainForBin, histPure, Finset.sum_range_succ]
  · simp [GiniObjectiveFunction.make, GiniObjectiveFunction.gainForBin,
      histPure, Finset.sum_range_succ]
    norm_num [kMax]

/-- C2: the claim says the `EntropyObjectiveFunction` constructor stores
its `min_impurity_decrease` and `min_samples_leaf` arguments in the
object's fields.  In the source the mem-initializers name the members
themselves (the parameters are misspelled `min_impurity_decreas` /
`min_samples_leafe`), so the two fields keep their indeterminate
pre-construction values: constructed with arguments `(2, 5, 7)` over
indeterminate values `(99, 42)`, the object's fields are `99` and `42`,
not `5` and `7`, and its `Gain` vetoes a candidate with
`nLeft = nRight = 2` although the caller asked for `min_samples_leaf = 1`. -/
theorem entropy_ctor_ignores_arguments :
    (EntropyObjectiveFunction.make 2 5 7 99 42).min_impurity_decrease = 99 ∧
    (EntropyObjectiveFunction.make 2 5 7 99 42).min_samples_leaf = 42 ∧
    (99 : ℚ) ≠ ((5 : ℤ) : ℚ) ∧ (42 : ℤ) ≠ 7 ∧
    (EntropyObjectiveFunction.make 2 0 1 0 5).gainForBin
        (fun _ => 0) histPure 1 4 0 = -kMax := by
  refine ⟨rfl, rfl, by norm_num, by norm_num, ?_⟩
  simp [EntropyObjectiveFunction.make, EntropyObjectiveFunction.gainForBin,
    histPure, Finset.sum_range_succ]

/-- C4: the claim says the Gini veto threshold is the caller's (possibly
fractional) `min_impurity_decrease`.  The constructor declares that
parameter with the integer type `IdxT`, so a fractional argument is
truncated: constructed with `3/4`, the object stores threshold `0`, and a
candidate bin whose gain is `1/2 ≤ 3/4` is *kept* (gain `1/2`, not the
`-kMax` sentinel the claim requires). -/
theorem gini_ctor_truncates_min_impurity_decrease :
    (GiniObjectiveFunction.fromDataT 2 (3 / 4) 1).min_impurity_decrease = 0 ∧
    (GiniObjectiveFunction.fromDataT 2 (3 / 4) 1).gainForBin
        histPure 1 4 0 = 1 / 2 ∧
    (1 / 2 : ℚ) ≤ 3 / 4 ∧ (1 / 2 : ℚ) ≠ -kMax := by
  have hfield : (GiniObjectiveFunction.fromDataT 2 (3 / 4) 1).min_impurity_decrease = 0 := by
    rw [GiniObjectiveFunction.fromDataT, truncTowardZero,
      if_pos (by norm_num : (0 : ℚ) ≤ 3 / 4)]
    norm_num [GiniObjectiveFunction.make, Int.floor_eq_zero_iff]
  refine ⟨hfield, ?_, by norm_num, by norm_num [kMax]⟩
  have hobj : GiniObjectiveFunction.fromDataT 2 (3 / 4) 1 =
      GiniObjectiveFunction.make 2 0 1 := by
    rw [GiniObjectiveFunction.fromDataT, truncTowardZero,
      if_pos (by norm_num : (0 : ℚ) ≤ 3 / 4)]
    norm_num [Int.floor_eq_zero_iff]
  rw [hobj]
  simp [GiniObjectiveFunction.make, GiniObjectiveFunction.gainForBin,
    histPure, Finset.sum_range_succ]
  norm_num [kMax]

/-- C5: for the MSE objective, `regressionMetricGain` computes, for every
bin, exactly the gain the specification states: `-kMax` when
`nLeft < min_samples_leaf` or `nRight < min_samples_leaf`, else
`(parent − (−left_sum²/nLeft − right_sum²/nRight))/n_samples` with
`parent = −(Σy)²/n`, `left_sum = label_cdf[i]`,
`right_sum = label_sum − left_sum`, downgraded to `-kMax` when it is at
most `min_impurity_decrease`. -/
theorem regressionMetricGain_matches_mse_spec (slabel_cdf : ℕ → ℚ)
    (scount_cdf : ℕ → ℤ) (label_sum : ℚ) (len : ℕ) (min_samples_leaf : ℤ)
    (min_impurity_decrease : ℚ) (i : ℕ) :
    regressionMetricGainForBin slabel_cdf scount_cdf label_sum len
        min_samples_leaf min_impurity_decrease i =
      mseGainSpec slabel_cdf scount_cdf label_sum len min_samples_leaf
        min_impurity_decrease i := by
  rw [regressionMetricGainForBin, mseGainSpec]
  by_cases h : scount_cdf i < min_samples_leaf ∨
      (len : ℤ) - scount_cdf i < min_samples_leaf
  · simp only [if_pos h, ite_self]
  · simp only [if_neg h]
    exact ite_gain_congr (by push_cast; ring)

/-! ## Builder driver: workspace sizing and binding (`builder_base.cuh`) -/

/-- Byte sizes of the element types used by the workspace regions
(`sizeof(IdxT)`, `sizeof(int)`, `sizeof(BinT)`, `sizeof(SplitT)`,
`sizeof(NodeT)`).  These are target/type-parameter dependent, so they are
kept abstract. -/
structure SizeModel where
  sizeofIdxT : ℕ
  sizeofInt : ℕ
  sizeofBinT : ℕ
  sizeofSplitT : ℕ
  sizeofNodeT : ℕ
  deriving DecidableEq, Repr

/-- The `Builder` fields involved in workspace sizing and binding.
`n_blks_for_cols` is initialized to `10` by its in-class initializer; the
other fields are written by `workspaceSize`. -/
structure Builder where
  params : DecisionTreeParams
  maxNodes : ℕ
  nHistBins : ℕ
  block_sync_size : ℕ
  n_blks_for_cols : ℕ
  deriving DecidableEq, Repr

/-- `raft::alignTo(addr, alignment) = ceildiv(addr, alignment) * alignment`. -/
def alignTo (size align : ℕ) : ℕ := ((size + align - 1) / align) * align

/-- `Builder::alignValue`: the 512-byte memory alignment value. -/
def alignValue : ℕ := 512

/-- `Builder::calculateAlignedBytes`. -/
def calculateAlignedBytes (actualSize : ℕ) : ℕ := alignTo actualSize alignValue

/-- `Builder::workspaceSize` (the part after its assertions): updates the
builder fields (`params`, the clamped `n_blks_for_cols`, `nHistBins`,
`maxNodes`, `block_sync_size`) and returns `(builder', d_wsize, h_wsize)`,
accumulating `d_wsize` region by region exactly as the source does. -/
def workspaceSize (sm : SizeModel) (b : Builder) (p : DecisionTreeParams)
    (sampledCols nclasses : ℕ) : Builder × ℕ × ℕ :=
  let n_blks_for_cols := min sampledCols b.n_blks_for_cols
  let max_batch := p.max_batch_size
  let n_col_blks := n_blks_for_cols
  let nHistBins := max_batch * (1 + p.n_bins) * n_col_blks * nclasses
  let maxNodes := if p.max_depth < 13 then 2 ^ (p.max_depth + 1) - 1 else 8191
  let block_sync_size := 0
  let d0 : ℕ := 0
  let d1 := d0 + calculateAlignedBytes sm.sizeofIdxT                        -- n_nodes
  let d2 := d1 + calculateAlignedBytes (sm.sizeofBinT * nHistBins)          -- hist
  let d3 := d2 + calculateAlignedBytes (sm.sizeofInt * max_batch * n_col_blks) -- done_count
  let d4 := d3 + calculateAlignedBytes (sm.sizeofInt * max_batch)           -- mutex
  let d5 := d4 + calculateAlignedBytes block_sync_size                      -- block_sync
  let d6 := d5 + calculateAlignedBytes sm.sizeofIdxT                        -- n_leaves
  let d7 := d6 + calculateAlignedBytes sm.sizeofIdxT                        -- n_depth
  let d8 := d7 + calculateAlignedBytes (sm.sizeofSplitT * max_batch)        -- splits
  let d9 := d8 + calculateAlignedBytes (sm.sizeofNodeT * max_batch)         -- curr_nodes
  let d10 := d9 + calculateAlignedBytes (sm.sizeofNodeT * 2 * max_batch)    -- next_nodes
  let h_wsize := calculateAlignedBytes sm.sizeofIdxT                        -- h_n_nodes
  ({ params := p, maxNodes := maxNodes, nHistBins := nHistBins,
     block_sync_size := block_sync_size, n_blks_for_cols := n_blks_for_cols },
   d10, h_wsize)

/-- `Builder::workspaceSize` including its runtime assertions, in source
order: `ASSERT(quantiles != nullptr, ...)` first, then (after binding the
input view) `ASSERT(nclasses >= 1, ...)`, then the pure size computation.
`quantilesPresent` models the null check on the `quantiles` pointer;
`workspaceSize` performs no device operation at all. -/
def workspaceSizeChecked (sm : SizeModel) (b : Builder)
    (p : DecisionTreeParams) (sampledCols : ℕ) (nclasses : ℤ)
    (quantilesPresent : Bool) : Except String (Builder × ℕ × ℕ) :=
  if quantilesPresent = false then
    Except.error "Currently quantiles need to be computed before this call!"
  else if nclasses < 1 then
    Except.error "nclasses should be at least 1"
  else
    Except.ok (workspaceSize sm b p sampledCols nclasses.toNat)

/-- The byte offsets (from the start of the device workspace buffer) at
which `Builder::assignWorkspace` binds the ten device regions. -/
structure WorkspaceOffsets where
  n_nodes : ℕ
  hist : ℕ
  done_count : ℕ
  mutex : ℕ
  block_sync : ℕ
  n_leaves : ℕ
  n_depth : ℕ
  splits : ℕ
  curr_nodes : ℕ
  next_nodes : ℕ
  deriving DecidableEq, Repr

/-- `Builder::assignWorkspace`: binds each region pointer at the current
buffer position and advances the position by the aligned size of that
region, reading `params.max_batch_size`, `n_blks_for_cols`, `nHistBins`
and `block_sync_size` from the builder fields set by `workspaceSize`. -/
def assignWorkspace (sm : SizeModel) (b : Builder) : WorkspaceOffsets :=
  let max_batch := b.params.max_batch_size
  let n_col_blks := b.n_blks_for_cols
  let o0 : ℕ := 0
  let o1 := o0 + calculateAlignedBytes sm.sizeofIdxT
  let o2 := o1 + calculateAlignedBytes (sm.sizeofBinT * b.nHistBins)
  let o3 := o2 + calculateAlignedBytes (sm.sizeofInt * max_batch * n_col_blks)
  let o4 := o3 + calculateAlignedBytes (sm.sizeofInt * max_batch)
  let o5 := o4 + calculateAlignedBytes b.block_sync_size
  let o6 := o5 + calculateAlignedBytes sm.sizeofIdxT
  let o7 := o6 + calculateAlignedBytes sm.sizeofIdxT
  let o8 := o7 + calculateAlignedBytes (sm.sizeofSplitT * max_batch)
  let o9 := o8 + calculateAlignedBytes (sm.sizeofNodeT * max_batch)
  { n_nodes := o0, hist := o1, done_count := o2, mutex := o3,
    block_sync := o4, n_leaves := o5, n_depth := o6, splits := o7,
    curr_nodes := o8, next_nodes := o9 }

/-- The (offset, unaligned byte size) pairs of the ten device regions, in
binding order, for a builder whose fields were set by `workspaceSize`. -/
def regionLayout (sm : SizeModel) (b : Builder) : List (ℕ × ℕ) :=
  let offs := assignWorkspace sm b
  let max_batch := b.params.max_batch_size
  [(offs.n_nodes, sm.sizeofIdxT),
   (offs.hist, sm.sizeofBinT * b.nHistBins),
   (offs.done_count, sm.sizeofInt * max_batch * b.n_blks_for_cols),
   (offs.mutex, sm.sizeofInt * max_batch),
   (offs.block_sync, b.block_sync_size),
   (offs.n_leaves, sm.sizeofIdxT),
   (offs.n_depth, sm.sizeofIdxT),
   (offs.splits, sm.sizeofSplitT * max_batch),
   (offs.curr_nodes, sm.sizeofNodeT * max_batch),
   (offs.next_nodes, sm.sizeofNodeT * 2 * max_batch)]

/-- Every aligned size is at least the actual size. -/
theorem le_calculateAlignedBytes (x : ℕ) : x ≤ calculateAlignedBytes x := by
  unfold calculateAlignedBytes alignTo alignValue
  omega

/-- Every aligned size is a multiple of 512 bytes. -/
theorem calculateAlignedBytes_mod (x : ℕ) : calculateAlignedBytes x % 512 = 0 := by
  unfold calculateAlignedBytes alignTo alignValue
  omega

/-! ## Claim theorems about workspace sizing and binding -/

/-- C7: on a freshly constructed builder (`n_blks_for_cols = 10`, the
other written fields arbitrary), `workspaceSize` computes `maxNodes` as
`2^(max_depth+1) − 1` when `max_depth < 13` and as the fixed cap `8191`
otherwise, computes `nHistBins = max_batch_size * (n_bins + 1) *
n_col_blks * nclasses` with `n_col_blks = min sampledCols 10`, and reports
a device byte count equal to the sum of the 512-byte-aligned sizes of the
ten regions `n_nodes`, `hist`, `done_count`, `mutex`, `block_sync`,
`n_leaves`, `n_depth`, `splits`, `curr_nodes` and `next_nodes` (the last
with `2 * max_batch_size` node capacity). -/
theorem workspaceSize_device_bytes (sm : SizeModel) (p p0 : DecisionTreeParams)
    (j1 j2 j3 sampledCols nclasses : ℕ) :
    (workspaceSize sm ⟨p0, j1, j2, j3, 10⟩ p sampledCols nclasses).1.maxNodes
        = (if p.max_depth < 13 then 2 ^ (p.max_depth + 1) - 1 else 8191) ∧
    (workspaceSize sm ⟨p0, j1, j2, j3, 10⟩ p sampledCols nclasses).1.nHistBins
        = p.max_batch_size * (p.n_bins + 1) * min sampledCols 10 * nclasses ∧
    (workspaceSize sm ⟨p0, j1, j2, j3, 10⟩ p sampledCols nclasses).2.1
        = calculateAlignedBytes sm.sizeofIdxT
          + calculateAlignedBytes (sm.sizeofBinT *
              (p.max_batch_size * (p.n_bins + 1) * min sampledCols 10 * nclasses))
          + calculateAlignedBytes (sm.sizeofInt * p.max_batch_size * min sampledCols 10)
          + calculateAlignedBytes (sm.sizeofInt * p.max_batch_size)
          + calculateAlignedBytes 0
          + calculateAlignedBytes sm.sizeofIdxT
          + calculateAlignedBytes sm.sizeofIdxT
          + calculateAlignedBytes (sm.sizeofSplitT * p.max_batch_size)
          + calculateAlignedBytes (sm.sizeofNodeT * p.max_batch_size)
          + calculateAlignedBytes (sm.sizeofNodeT * 2 * p.max_batch_size) ∧
    (∀ x : ℕ, x ≤ calculateAlignedBytes x ∧ calculateAlignedBytes x % 512 = 0) := by
  refine ⟨by simp [workspaceSize], ?_, ?_,
    fun x => ⟨le_calculateAlignedBytes x, calculateAlignedBytes_mod x⟩⟩
  · simp only [workspaceSize]
    ring
  · simp only [workspaceSize]
    ring_nf

/-- C8: calling `workspaceSize` a second time on the builder state left by
a first call, with identical arguments, returns the same
`(device_bytes, host_bytes)` pair: re-clamping
`n_blks_for_cols = min sampledCols (min sampledCols n_blks_for_cols)`
reproduces the first clamp, and every size is recomputed from it. -/
theorem workspaceSize_idempotent (sm : SizeModel) (b : Builder)
    (p : DecisionTreeParams) (sampledCols nclasses : ℕ) :
    (workspaceSize sm (workspaceSize sm b p sampledCols nclasses).1
        p sampledCols nclasses).2 =
      (workspaceSize sm b p sampledCols nclasses).2 := by
  simp [workspaceSize, ← min_assoc, min_self]

/-- C9 counterexample: the claim says every misconfigured call — in
particular `n_bins < 1` — makes `workspaceSize` raise an assertion
failure.  A call with `n_bins = 0` (quantiles present, `nclasses = 2`)
succeeds: `workspaceSize` only asserts `quantiles != nullptr` and
`nclasses >= 1`; it never inspects `n_bins`, the split criterion, or the
input's layout. -/
theorem workspaceSizeChecked_accepts_zero_bins :
    (⟨8, -1, 128, 0, 2, 1, 0⟩ : DecisionTreeParams).n_bins < 1 ∧
    (workspaceSizeChecked ⟨4, 4, 4, 16, 64⟩
        ⟨⟨8, -1, 128, 0, 2, 1, 0⟩, 0, 0, 0, 10⟩
        ⟨8, -1, 128, 0, 2, 1, 0⟩ 4 2 true).isOk = true := by
  exact ⟨by norm_num, rfl⟩

/-- C9 (amended): `workspaceSize` fails fast exactly on the two
preconditions it asserts — missing quantiles and `nclasses < 1` — before
computing any size (and it enqueues no device work at all); `n_bins`, the
split criterion, and the input layout are not checked by it. -/
theorem workspaceSizeChecked_error_iff (sm : SizeModel) (b : Builder)
    (p : DecisionTreeParams) (sampledCols : ℕ) (nclasses : ℤ)
    (quantilesPresent : Bool) :
    (workspaceSizeChecked sm b p sampledCols nclasses quantilesPresent).isOk
        = true ↔ (quantilesPresent = true ∧ 1 ≤ nclasses) := by
  unfold workspaceSizeChecked
  rcases quantilesPresent with _ | _
  · simp [Except.isOk, Except.toBool]
  · by_cases h : nclasses < 1
    · rw [if_neg (by simp), if_pos h]
      refine iff_of_false (by decide) ?_
      rintro ⟨-, hge⟩
      omega
    · rw [if_neg (by simp), if_neg h]
      exact iff_of_true rfl ⟨rfl, by omega⟩

/-! ## Builder driver: the train loop and host node bookkeeping -/

/-- The pinned-host node vector `h_nodes`.  Only the bookkeeping the
claims are about is modelled: a node is represented by its creation index
(`some id`); an entry that has never been written holds no node (`none`).
`entry` is a total function; indices `≥ length` are out of range (and stay
`none`). -/
structure HostVec where
  length : ℕ
  entry : ℕ → Option ℕ

/-- `h_nodes.resize(h_nodes.size() + k)`: `k` fresh, never-written entries
are appended; the live prefix is untouched. -/
def HostVec.resizeAdd (v : HostVec) (k : ℕ) : HostVec :=
  { length := v.length + k
    entry := fun i => if v.length ≤ i then none else v.entry i }

/-- `raft::update_host(v.data() + start, src, n, s)` where `src` holds the
`n` nodes with creation indices `start .. start+n-1` in order
(`curr_nodes` when writing the updated parents back in place,
`next_nodes` when appending the freshly created children). -/
def HostVec.writeNodes (v : HostVec) (start n : ℕ) : HostVec :=
  { length := v.length
    entry := fun i => if start ≤ i ∧ i < start + n then some i else v.entry i }

/-- The host-side state of `Builder::train`: the host node vector, the
frontier range `[node_start, node_end)` and `h_total_nodes`. -/
structure TrainState where
  h_nodes : HostVec
  node_start : ℕ
  node_end : ℕ
  h_total_nodes : ℕ

/-- `Builder::init` (host bookkeeping): `node_start = 0`,
`node_end = h_total_nodes = 1`, `h_nodes.resize(1)` with the root node
written at index 0. -/
def initState : TrainState :=
  { h_nodes := HostVec.writeNodes (HostVec.resizeAdd ⟨0, fun _ => none⟩ 1) 0 1
    node_start := 0
    node_end := 1
    h_total_nodes := 1 }

/-- `Builder::doSplit` (host bookkeeping): `batchSize = node_end −
node_start`; the device kernels report `n_new` freshly created child
nodes (`*h_n_nodes`); the host vector is resized by `batchSize + n_new`
entries, the `batchSize` updated parents are written back in place at
`node_start`, and the `n_new` children are written starting at index
`h_total_nodes`.  Returns `*h_n_nodes`. -/
def doSplit (st : TrainState) (n_new : ℕ) : TrainState × ℕ :=
  let batchSize := st.node_end - st.node_start
  let v1 := st.h_nodes.resizeAdd (batchSize + n_new)
  let v2 := v1.writeNodes st.node_start batchSize
  let v3 := v2.writeNodes st.h_total_nodes n_new
  ({ st with h_nodes := v3 }, n_new)

/-- One iteration of `train`'s loop up to the break test:
`new_nodes = doSplit(h_nodes, s); h_total_nodes += new_nodes`. -/
def afterBatch (st : TrainState) (n_new : ℕ) : TrainState :=
  let r := doSplit st n_new
  { r.1 with h_total_nodes := r.1.h_total_nodes + r.2 }

/-- `Builder::updateNodeRange`: `node_start := node_end; node_end :=
min(h_total_nodes − node_end, max_batch_size) + node_end`. -/
def updateNodeRange (max_batch_size : ℕ) (st : TrainState) : TrainState :=
  { st with node_start := st.node_end
            node_end := min (st.h_total_nodes - st.node_end) max_batch_size
              + st.node_end }

/-- `Builder::train`'s batch loop.  The per-batch numbers of new children
reported by the device `nodeSplitKernel` are supplied as an oracle list
`ns` (the kernel is device code outside the host driver); the loop breaks
when a batch creates no new node and `isOver()` (`node_end ==
h_total_nodes`) holds.  `none` means the oracle was exhausted before the
loop terminated. -/
def trainLoop (max_batch_size : ℕ) : List ℕ → TrainState → Option TrainState
  | [], _ => none
  | n :: rest, st =>
    let st2 := afterBatch st n
    if n = 0 ∧ st2.node_end = st2.h_total_nodes then some st2
    else trainLoop max_batch_size rest (updateNodeRange max_batch_size st2)

/-- `Builder::train` (host bookkeeping), starting from `init()`. -/
def train (max_batch_size : ℕ) (ns : List ℕ) : Option TrainState :=
  trainLoop max_batch_size ns initState

/-- The loop-entry invariant of `train`'s batch loop: the frontier is a
well-formed range of already-created nodes, the vector length equals
`h_total_nodes` plus the number of already-processed nodes
(`node_start`), the first `h_total_nodes` entries hold the nodes in
creation order, and everything past them was never written. -/
def LoopInv (st : TrainState) : Prop :=
  st.node_start ≤ st.node_end ∧
  st.node_end ≤ st.h_total_nodes ∧
  1 ≤ st.h_total_nodes ∧
  st.h_nodes.length = st.h_total_nodes + st.node_start ∧
  (∀ i, i < st.h_total_nodes → st.h_nodes.entry i = some i) ∧
  (∀ i, st.h_total_nodes ≤ i → st.h_nodes.entry i = none)

theorem loopInv_init : LoopInv initState := by
  refine ⟨by simp [initState], by simp [initState], by simp [initState],
    by simp [initState, HostVec.writeNodes, HostVec.resizeAdd], ?_, ?_⟩
  · intro i hi
    simp only [initState] at hi
    have hz : i = 0 := by omega
    subst hz
    simp [initState, HostVec.writeNodes, HostVec.resizeAdd]
  · intro i hi
    simp only [initState] at hi
    simp only [initState, HostVec.writeNodes, HostVec.resizeAdd]
    rw [if_neg (by omega), if_pos (by omega)]

/-- Effect of one `doSplit`-plus-`h_total_nodes` update on the state,
under the loop invariant. -/
theorem afterBatch_spec (st : TrainState) (n : ℕ) (h : LoopInv st) :
    (afterBatch st n).node_start = st.node_start ∧
    (afterBatch st n).node_end = st.node_end ∧
    (afterBatch st n).h_total_nodes = st.h_total_nodes + n ∧
    (afterBatch st n).h_nodes.length = st.h_total_nodes + n + st.node_end ∧
    (∀ i, i < st.h_total_nodes + n →
        (afterBatch st n).h_nodes.entry i = some i) ∧
    (∀ i, st.h_total_nodes + n ≤ i →
        (afterBatch st n).h_nodes.entry i = none) := by
  obtain ⟨h1, h2, h3, h4, h5, h6⟩ := h
  refine ⟨rfl, rfl, rfl, ?_, ?_, ?_⟩
  · simp only [afterBatch, doSplit, HostVec.writeNodes, HostVec.resizeAdd]
    omega
  · intro i hi
    simp only [afterBatch, doSplit, HostVec.writeNodes, HostVec.resizeAdd]
    by_cases hc : st.h_total_nodes ≤ i ∧ i < st.h_total_nodes + n
    · rw [if_pos hc]
    · rw [if_neg hc]
      by_cases hp : st.node_start ≤ i ∧
          i < st.node_start + (st.node_end - st.node_start)
      · rw [if_pos hp]
      · rw [if_neg hp, if_neg (by omega)]
        exact h5 i (by omega)
  · intro i hi
    simp only [afterBatch, doSplit, HostVec.writeNodes, HostVec.resizeAdd]
    rw [if_neg (by omega), if_neg (by omega)]
    by_cases hl : st.h_nodes.length ≤ i
    · rw [if_pos hl]
    · rw [if_neg hl]
      exact h6 i (by omega)

/-- The loop invariant is preserved by a full loop iteration
(`doSplit`, `h_total_nodes += new_nodes`, `updateNodeRange`). -/
theorem loopInv_step (mb n : ℕ) (st : TrainState) (h : LoopInv st) :
    LoopInv (updateNodeRange mb (afterBatch st n)) := by
  obtain ⟨g1, g2, g3, g4, g5, g6⟩ := afterBatch_spec st n h
  obtain ⟨h1, h2, h3, h4, h5, h6⟩ := h
  refine ⟨?_, ?_, ?_, ?_, ?_, ?_⟩
  · show (afterBatch st n).node_end ≤
      min ((afterBatch st n).h_total_nodes - (afterBatch st n).node_end) mb
        + (afterBatch st n).node_end
    omega
  · show min ((afterBatch st n).h_total_nodes - (afterBatch st n).node_end) mb
        + (afterBatch st n).node_end ≤ (afterBatch st n).h_total_nodes
    omega
  · show 1 ≤ (afterBatch st n).h_total_nodes
    omega
  · show (afterBatch st n).h_nodes.length =
      (afterBatch st n).h_total_nodes + (afterBatch st n).node_end
    omega
  · show ∀ i, i < (afterBatch st n).h_total_nodes →
      (afterBatch st n).h_nodes.entry i = some i
    intro i hi
    exact g5 i (by omega)
  · show ∀ i, (afterBatch st n).h_total_nodes ≤ i →
      (afterBatch st n).h_nodes.entry i = none
    intro i hi
    exact g6 i (by omega)

/-- If the loop returns, the returned state satisfies the terminal
bookkeeping facts. -/
theorem trainLoop_final (mb : ℕ) : ∀ (ns : List ℕ) (st st' : TrainState),
    LoopInv st → trainLoop mb ns st = some st' →
    st'.node_end = st'.h_total_nodes ∧
    st'.h_nodes.length = 2 * st'.h_total_nodes ∧
    1 ≤ st'.h_total_nodes ∧
    (∀ i, i < st'.h_total_nodes → st'.h_nodes.entry i = some i) ∧
    (∀ i, st'.h_total_nodes ≤ i → st'.h_nodes.entry i = none) := by
  intro ns
  induction ns with
  | nil => intro st st' _ heq; exact absurd heq (by simp [trainLoop])
  | cons n rest ih =>
    intro st st' hInv heq
    rw [trainLoop] at heq
    by_cases hc : n = 0 ∧
        (afterBatch st n).node_end = (afterBatch st n).h_total_nodes
    · rw [if_pos hc] at heq
      obtain ⟨g1, g2, g3, g4, g5, g6⟩ := afterBatch_spec st n hInv
      obtain ⟨h1, h2, h3, h4, h5, h6⟩ := hInv
      have hend := hc.2
      cases heq
      exact ⟨hend, by omega, by omega, g5, g6⟩
    · rw [if_neg hc] at heq
      exact ih _ st' (loopInv_step mb n st hInv) heq

/-- C3 counterexample: the claim says that after `train` returns,
`h_nodes` contains exactly `h_total_nodes` entries with no extra or
uninitialized trailing ones.  Already in the smallest run — the root is
immediately a leaf (`ns = [0]`) — `doSplit` resizes by `batchSize +
*h_n_nodes` although the `batchSize` parents are rewritten in place, so
the final vector has `2` entries while `h_total_nodes = 1`. -/
theorem train_host_nodes_has_trailing_entries :
    Option.map (fun st => (st.h_nodes.length, st.h_total_nodes)) (train 4 [0])
        = some (2, 1) ∧ (2 : ℕ) ≠ 1 :=
  ⟨rfl, by decide⟩

/-- C3 (amended): whenever `train` terminates, the first `h_total_nodes`
entries of `h_nodes` are exactly the root plus every child emitted across
all `doSplit` batches, in order of creation (each `doSplit` writes the
`batchSize` updated parents back in place at `node_start` and the
`*h_n_nodes` new children at index `h_total_nodes`); but the vector's
length is `2 * h_total_nodes`, not `h_total_nodes`: every batch resizes by
`batchSize + *h_n_nodes`, leaving one never-written trailing entry per
processed node. -/
theorem train_host_nodes_layout (mb : ℕ) (ns : List ℕ) (st' : TrainState)
    (h : train mb ns = some st') :
    st'.h_nodes.length = 2 * st'.h_total_nodes ∧
    1 ≤ st'.h_total_nodes ∧
    (∀ i, i < st'.h_total_nodes → st'.h_nodes.entry i = some i) ∧
    (∀ i, st'.h_total_nodes ≤ i → st'.h_nodes.entry i = none) := by
  obtain ⟨-, e2, e3, e4, e5⟩ := trainLoop_final mb ns initState st' loopInv_init h
  exact ⟨e2, e3, e4, e5⟩

/-- Witness for the C3 theorem `train_host_nodes_layout` at the concrete
run `train 4 [0] = some (afterBatch initState 0)`. -/
theorem train_host_nodes_layout_witness :
    (afterBatch initState 0).h_nodes.length
        = 2 * (afterBatch initState 0).h_total_nodes ∧
    (afterBatch initState 0).h_nodes.entry 0 = some 0 ∧
    (afterBatch initState 0).h_nodes.entry 1 = none :=
  ⟨(train_host_nodes_layout 4 [0] (afterBatch initState 0) rfl).1,
   (train_host_nodes_layout 4 [0] (afterBatch initState 0) rfl).2.2.1 0
     (by decide),
   (train_host_nodes_layout 4 [0] (afterBatch initState 0) rfl).2.2.2 1
     (by decide)⟩

/-- C6: across `train`'s batch loop, (i) the frontier bounds
`node_start ≤ node_end ≤ h_total_nodes` and `node_end − node_start ≤
max_batch_size` hold at the first iteration and are preserved by every
full iteration; (ii) `updateNodeRange` sets `node_start` to the old
`node_end` and `node_end` to the old `node_end` plus
`min (h_total_nodes − node_end) max_batch_size`; and (iii) the loop
returns (exits) on an iteration exactly when that iteration's `doSplit`
reported zero new nodes and, after the `h_total_nodes` update, `node_end
= h_total_nodes`. -/
theorem train_frontier_range (mb : ℕ) (hmb : 1 ≤ mb) :
    (initState.node_start ≤ initState.node_end ∧
     initState.node_end ≤ initState.h_total_nodes ∧
     initState.node_end - initState.node_start ≤ mb) ∧
    (∀ st n, st.node_start ≤ st.node_end → st.node_end ≤ st.h_total_nodes →
       st.node_end - st.node_start ≤ mb →
       ((updateNodeRange mb (afterBatch st n)).node_start ≤
          (updateNodeRange mb (afterBatch st n)).node_end ∧
        (updateNodeRange mb (afterBatch st n)).node_end ≤
          (updateNodeRange mb (afterBatch st n)).h_total_nodes ∧
        (updateNodeRange mb (afterBatch st n)).node_end -
          (updateNodeRange mb (afterBatch st n)).node_start ≤ mb)) ∧
    (∀ st, updateNodeRange mb st =
       { st with node_start := st.node_end,
                 node_end := min (st.h_total_nodes - st.node_end) mb
                   + st.node_end }) ∧
    (∀ n rest st,
       ((n = 0 ∧ (afterBatch st n).node_end = (afterBatch st n).h_total_nodes)
          → trainLoop mb (n :: rest) st = some (afterBatch st n)) ∧
       (¬(n = 0 ∧ (afterBatch st n).node_end = (afterBatch st n).h_total_nodes)
          → trainLoop mb (n :: rest) st =
              trainLoop mb rest (updateNodeRange mb (afterBatch st n)))) := by
  refine ⟨⟨by simp [initState], by simp [initState], by simp [initState]; omega⟩,
    ?_, fun st => rfl, ?_⟩
  · intro st n p1 p2 p3
    have e2 : (afterBatch st n).node_end = st.node_end := rfl
    have e3 : (afterBatch st n).h_total_nodes = st.h_total_nodes + n := rfl
    refine ⟨?_, ?_, ?_⟩
    · show (afterBatch st n).node_end ≤
        min ((afterBatch st n).h_total_nodes - (afterBatch st n).node_end) mb
          + (afterBatch st n).node_end
      omega
    · show min ((afterBatch st n).h_total_nodes - (afterBatch st n).node_end)
          mb + (afterBatch st n).node_end ≤ (afterBatch st n).h_total_nodes
      omega
    · show min ((afterBatch st n).h_total_nodes - (afterBatch st n).node_end)
          mb + (afterBatch st n).node_end - (afterBatch st n).node_end ≤ mb
      omega
  · intro n rest st
    constructor
    · intro hc
      rw [trainLoop, if_pos hc]
    · intro hc
      rw [trainLoop, if_neg hc]

/-- Witness for the C6 theorem `train_frontier_range` at `mb = 1`: the
claimed `updateNodeRange` equation evaluated on a concrete state. -/
theorem train_frontier_range_witness :
    updateNodeRange 1 initState =
      { initState with
          node_start := initState.node_end,
          node_end := min (initState.h_total_nodes - initState.node_end) 1
            + initState.node_end } ∧ (1 : ℕ) ≤ 1 :=
  ⟨(train_frontier_range 1 (by decide)).2.2.1 initState, by decide⟩

/-- C10: after `workspaceSize` has run, `assignWorkspace` binds the ten
device regions at offsets that are exactly the running sums of the aligned
region sizes `workspaceSize` accumulated into `device_bytes`; hence every
region starts at a 512-byte-aligned offset, the regions (with their
unaligned extents) are pairwise disjoint in binding order, and the final
`next_nodes` region (capacity `2 * max_batch_size` nodes) ends at or
before the reported `device_bytes`. -/
theorem assignWorkspace_layout (sm : SizeModel) (b0 : Builder)
    (p : DecisionTreeParams) (sampledCols nclasses : ℕ) :
    ((assignWorkspace sm (workspaceSize sm b0 p sampledCols nclasses).1).n_nodes
        = 0 ∧
     (assignWorkspace sm (workspaceSize sm b0 p sampledCols nclasses).1).hist
        = (assignWorkspace sm (workspaceSize sm b0 p sampledCols nclasses).1).n_nodes
          + calculateAlignedBytes sm.sizeofIdxT ∧
     (assignWorkspace sm (workspaceSize sm b0 p sampledCols nclasses).1).done_count
        = (assignWorkspace sm (workspaceSize sm b0 p sampledCols nclasses).1).hist
          + calculateAlignedBytes (sm.sizeofBinT *
              (workspaceSize sm b0 p sampledCols nclasses).1.nHistBins) ∧
     (assignWorkspace sm (workspaceSize sm b0 p sampledCols nclasses).1).mutex
        = (assignWorkspace sm (workspaceSize sm b0 p sampledCols nclasses).1).done_count
          + calculateAlignedBytes (sm.sizeofInt * p.max_batch_size *
              (workspaceSize sm b0 p sampledCols nclasses).1.n_blks_for_cols) ∧
     (assignWorkspace sm (workspaceSize sm b0 p sampledCols nclasses).1).block_sync
        = (assignWorkspace sm (workspaceSize sm b0 p sampledCols nclasses).1).mutex
          + calculateAlignedBytes (sm.sizeofInt * p.max_batch_size) ∧
     (assignWorkspace sm (workspaceSize sm b0 p sampledCols nclasses).1).n_leaves
        = (assignWorkspace sm (workspaceSize sm b0 p sampledCols nclasses).1).block_sync
          + calculateAlignedBytes
              (workspaceSize sm b0 p sampledCols nclasses).1.block_sync_size ∧
     (assignWorkspace sm (workspaceSize sm b0 p sampledCols nclasses).1).n_depth
        = (assignWorkspace sm (workspaceSize sm b0 p sampledCols nclasses).1).n_leaves
          + calculateAlignedBytes sm.sizeofIdxT ∧
     (assignWorkspace sm (workspaceSize sm b0 p sampledCols nclasses).1).splits
        = (assignWorkspace sm (workspaceSize sm b0 p sampledCols nclasses).1).n_depth
          + calculateAlignedBytes sm.sizeofIdxT ∧
     (assignWorkspace sm (workspaceSize sm b0 p sampledCols nclasses).1).curr_nodes
        = (assignWorkspace sm (workspaceSize sm b0 p sampledCols nclasses).1).splits
          + calculateAlignedBytes (sm.sizeofSplitT * p.max_batch_size) ∧
     (assignWorkspace sm (workspaceSize sm b0 p sampledCols nclasses).1).next_nodes
        = (assignWorkspace sm (workspaceSize sm b0 p sampledCols nclasses).1).curr_nodes
          + calculateAlignedBytes (sm.sizeofNodeT * p.max_batch_size)) ∧
    (∀ pr ∈ regionLayout sm (workspaceSize sm b0 p sampledCols nclasses).1,
        pr.1 % 512 = 0) ∧
    (regionLayout sm (workspaceSize sm b0 p sampledCols nclasses).1).Pairwise
        (fun r1 r2 => r1.1 + r1.2 ≤ r2.1) ∧
    (assignWorkspace sm (workspaceSize sm b0 p sampledCols nclasses).1).next_nodes
        + sm.sizeofNodeT * 2 * p.max_batch_size
      ≤ (workspaceSize sm b0 p sampledCols nclasses).2.1 := by
  have hIdx := le_calculateAlignedBytes sm.sizeofIdxT
  have hHist := le_calculateAlignedBytes (sm.sizeofBinT *
    (p.max_batch_size * (1 + p.n_bins) * min sampledCols b0.n_blks_for_cols * nclasses))
  have hDone := le_calculateAlignedBytes
    (sm.sizeofInt * p.max_batch_size * min sampledCols b0.n_blks_for_cols)
  have hMutex := le_calculateAlignedBytes (sm.sizeofInt * p.max_batch_size)
  have hSync := le_calculateAlignedBytes 0
  have hSplits := le_calculateAlignedBytes (sm.sizeofSplitT * p.max_batch_size)
  have hCurr := le_calculateAlignedBytes (sm.sizeofNodeT * p.max_batch_size)
  have hNext := le_calculateAlignedBytes (sm.sizeofNodeT * 2 * p.max_batch_size)
  have mIdx := calculateAlignedBytes_mod sm.sizeofIdxT
  have mHist := calculateAlignedBytes_mod (sm.sizeofBinT *
    (p.max_batch_size * (1 + p.n_bins) * min sampledCols b0.n_blks_for_cols * nclasses))
  have mDone := calculateAlignedBytes_mod
    (sm.sizeofInt * p.max_batch_size * min sampledCols b0.n_blks_for_cols)
  have mMutex := calculateAlignedBytes_mod (sm.sizeofInt * p.max_batch_size)
  have mSync := calculateAlignedBytes_mod 0
  have mSplits := calculateAlignedBytes_mod (sm.sizeofSplitT * p.max_batch_size)
  have mCurr := calculateAlignedBytes_mod (sm.sizeofNodeT * p.max_batch_size)
  refine ⟨⟨rfl, ?_, ?_, ?_, ?_, ?_, ?_, ?_, ?_, ?_⟩, ?_, ?_, ?_⟩ <;>
    simp [workspaceSize, assignWorkspace, regionLayout, List.pairwise_cons] <;>
    omega

end DT
